import Mathlib

/-!
Shallow embedding of the timetable backend (src/src/timetable.ts, multi-term
schema era: the `timetable_entries` / `timetable_published_terms` /
`timetable_settings` model).  SQLite tables are embedded as lists of row
structures; each HTTP handler becomes a function from a database state (plus
the request) to a new state and an `Except`-style outcome.  `INTEGER` columns
are embedded as `Int`, `TEXT` as `String`, nullable columns as `Option`.
-/

deriving instance DecidableEq for Except

namespace TimetableModel

/-- Error taxonomy of the handlers. `invalidDay` is the 400 "bad day" thrown by
`dayKeyToNum`; `badDayNum` is the 500 "bad day num" thrown by `dayNumToKey`;
`privateTimetable` is the 403 on the visibility gate; `copyNotAllowed` the 403
of the copy endpoint; `syncFailed` the catch-all 500 of the sync handler's
try/catch; `dbError` an uncaught store failure. -/
inductive TErr where
  | invalidDay (s : String)
  | badDayNum (n : Int)
  | privateTimetable
  | copyNotAllowed
  | syncFailed
  | dbError
deriving DecidableEq

/-- Row of `timetable_entries` (the `updated_at` column carries no behaviour
visible to any endpoint, so it is not tracked). -/
structure EntryRow where
  user_id : String
  year : Int
  semester : Int
  sub_term : Int
  day : Int
  period : Int
  course_code : Option String
  course_name : Option String
  instructor : Option String
deriving DecidableEq

/-- Row of `timetable_published_terms`. -/
structure PublishedRow where
  user_id : String
  year : Int
  semester : Int
  sub_term : Int
  is_latest : Int
  published_at : Int
deriving DecidableEq

/-- Row of `timetable_settings` (the `updated_at` column is not tracked;
`custom_colors` is kept as the raw serialized TEXT, opaque to the core). -/
structure SettingsRow where
  user_id : String
  is_public : Int
  allow_copy : Int
  allow_followers : Int
  custom_colors : Option String
deriving DecidableEq

/-- The backing store: the three timetable tables plus the follow graph.
`follows` holds the pairs (follower_id, followee_id) whose row in `follows`
has state='active' — exactly what `isFollower` queries. -/
structure DBState where
  entries : List EntryRow
  published : List PublishedRow
  settings : List SettingsRow
  follows : List (String × String)
deriving DecidableEq

/-- A JSON `day` value as the handlers receive it: either a JSON number or a
JSON string (`typeof k === 'number'` distinguishes the two). -/
inductive DayVal where
  | num (n : Int)
  | str (s : String)
deriving DecidableEq

/-- Model of JavaScript `String.prototype.toLowerCase` (ASCII range, which is
all the handlers compare against), applied character-wise. -/
def jsToLower (s : String) : String :=
  ⟨s.data.map Char.toLower⟩

/-- The letter map { m:1, t:2, w:3, r:4, f:5 } of `dayKeyToNum`. -/
def dayLetterMap (k : String) : Option Int :=
  if k = "m" then some 1
  else if k = "t" then some 2
  else if k = "w" then some 3
  else if k = "r" then some 4
  else if k = "f" then some 5
  else none

/-- Model of JavaScript `parseInt(s, 10)`: skip leading whitespace, optional
sign, then a run of decimal digits; `none` models NaN (no digits). -/
def jsParseInt (s : String) : Option Int :=
  let cs := s.toList.dropWhile (fun c => c = ' ' ∨ c = '\t' ∨ c = '\n' ∨ c = '\r')
  let signed : Int × List Char :=
    match cs with
    | '-' :: r => (-1, r)
    | '+' :: r => (1, r)
    | r => (1, r)
  let digits := signed.2.takeWhile Char.isDigit
  if digits.isEmpty then none
  else some (signed.1 * (Int.ofNat (digits.foldl (fun a c => a * 10 + (c.toNat - 48)) 0)))

/-- Embedding of `dayKeyToNum` (timetable.ts lines 131-145).  A JSON number is
returned unchanged without any range check; a string is lowercased, looked up
in the letter map, else parsed as an integer and range-checked 1..5; anything
else throws the 400 "bad day" error. -/
def dayKeyToNum : DayVal → Except TErr Int
  | .num n => .ok n
  | .str s =>
    let key := jsToLower s
    match dayLetterMap key with
    | some v => .ok v
    | none =>
      match jsParseInt key with
      | some n => if 1 ≤ n ∧ n ≤ 5 then .ok n else .error (.invalidDay s)
      | none => .error (.invalidDay s)

/-- Embedding of `dayNumToKey` (timetable.ts lines 147-151): indexes the array
['','m','t','w','r','f'] after rejecting anything outside 1..5 with the 500
"bad day num" error. -/
def dayNumToKey (n : Int) : Except TErr String :=
  if n < 1 ∨ n > 5 then .error (.badDayNum n)
  else .ok (if n = 1 then "m" else if n = 2 then "t" else if n = 3 then "w"
            else if n = 4 then "r" else "f")

/-- Primary key of `timetable_entries`:
(user_id, year, semester, sub_term, day, period). -/
def entryKey (r : EntryRow) : String × Int × Int × Int × Int × Int :=
  (r.user_id, r.year, r.semester, r.sub_term, r.day, r.period)

/-- Primary key of `timetable_published_terms`:
(user_id, year, semester, sub_term). -/
def publishedKey (r : PublishedRow) : String × Int × Int × Int :=
  (r.user_id, r.year, r.semester, r.sub_term)

/-- The `SELECT ... FROM timetable_settings WHERE user_id = ?` lookup. -/
def settingsFor (st : DBState) (u : String) : Option SettingsRow :=
  st.settings.find? (fun r => r.user_id == u)

/-- A D1 `batch` of plain `INSERT INTO timetable_entries` statements: the batch
is transactional, and each INSERT fails on a primary-key conflict with the
rows already in the table (including rows inserted earlier in the batch), in
which case the whole batch takes no effect. -/
def insertBatch (table : List EntryRow) : List EntryRow → Except TErr (List EntryRow)
  | [] => .ok table
  | r :: rest =>
    if table.any (fun x => entryKey x == entryKey r) then .error .dbError
    else insertBatch (table ++ [r]) rest

/-- One element of the `entries` array of a sync request.  The legacy aliased
field names (`sub_term` for `subTerm`, `course_code` for `courseCode`,
`dayNum` as the fallback of `day`, ...) are collapsed into the one value the
handler's `??` chains produce. -/
structure SyncEntry where
  year : Option Int
  semester : Option Int
  subTerm : Option Int
  day : DayVal
  period : Int
  courseCode : Option String
  courseName : Option String
  instructor : Option String
deriving DecidableEq

/-- Body of PUT /timetables/sync plus the authenticated uid. -/
structure SyncReq where
  uid : String
  year : Int
  semester : Int
  subTerm : Int
  entries : List SyncEntry
  publishLatest : Bool
deriving DecidableEq

/-- The JSON body of the sync handler's 200 response. -/
structure SyncResponse where
  success : Bool
  deleted : Bool
  inserted : Nat
  message : String
deriving DecidableEq

/-- The `message` string of the sync success response. -/
def mkSyncMessage (n : Nat) (y sm tt : Int) : String :=
  s!"Synced {n} entries for {y}年度 学期{sm} サブターム{tt}"

/-- Building the INSERT row for one entry of a sync request (timetable.ts
lines 372-400): per-entry term fields default to the request-level term, the
day is decoded with `dayKeyToNum` (an error aborts the whole construction). -/
def buildRow (req : SyncReq) (e : SyncEntry) : Except TErr EntryRow := do
  let d ← dayKeyToNum e.day
  .ok { user_id := req.uid
        year := e.year.getD req.year
        semester := e.semester.getD req.semester
        sub_term := e.subTerm.getD req.subTerm
        day := d
        period := e.period
        course_code := e.courseCode
        course_name := e.courseName
        instructor := e.instructor }

/-- The `entries.map(...)` statement construction: the first entry whose day
fails to decode throws, discarding all statements. -/
def buildRows (req : SyncReq) : List SyncEntry → Except TErr (List EntryRow)
  | [] => .ok []
  | e :: rest => do
    let r ← buildRow req e
    let rs ← buildRows req rest
    .ok (r :: rs)

/-- The `DELETE FROM timetable_entries WHERE user_id=? AND year=? AND
semester=? AND sub_term=?` step of the sync handler, as a whole-table filter. -/
def deleteTerm (tab : List EntryRow) (uid : String) (y sm tt : Int) : List EntryRow :=
  tab.filter (fun r =>
    !(r.user_id == uid && r.year == y && r.semester == sm && r.sub_term == tt))

/-- The publish upsert (`INSERT ... ON CONFLICT ... DO UPDATE`) shared by
PUT /timetables/publish (lines 712-718) and the sync publishLatest step
(lines 412-417, which is the `latest := true` instance): refresh
`published_at`, set `is_latest` when pinning, otherwise keep (or default to 0
on a fresh row). -/
def publishUpsert (rows : List PublishedRow) (uid : String) (y sm tt : Int)
    (latest : Bool) (now : Int) : List PublishedRow :=
  if rows.any (fun r => publishedKey r == (uid, y, sm, tt)) then
    rows.map (fun r =>
      if publishedKey r == (uid, y, sm, tt) then
        { r with published_at := now, is_latest := if latest then 1 else r.is_latest }
      else r)
  else
    rows ++ [{ user_id := uid, year := y, semester := sm, sub_term := tt,
               is_latest := if latest then 1 else 0, published_at := now }]

/-- The clear-siblings UPDATE: `SET is_latest=0 WHERE user_id=? AND NOT
(year=? AND semester=? AND sub_term=?)`. -/
def clearOthers (rows : List PublishedRow) (uid : String) (y sm tt : Int) :
    List PublishedRow :=
  rows.map (fun r =>
    if r.user_id == uid && !(r.year == y && r.semester == sm && r.sub_term == tt)
    then { r with is_latest := 0 } else r)

/-- The set-then-clear publish transition: upsert the row, then, when pinning
as latest, clear `is_latest` on every other row of the same owner. -/
def publishTerm (rows : List PublishedRow) (uid : String) (y sm tt : Int)
    (latest : Bool) (now : Int) : List PublishedRow :=
  let rows1 := publishUpsert rows uid y sm tt latest now
  if latest then clearOthers rows1 uid y sm tt else rows1

/-- Embedding of PUT /timetables/publish (timetable.ts lines 699-729).  The
`Number.isFinite` guard on year/semester is vacuous here because the fields
are already embedded as integers. -/
def publishHandler (st : DBState) (uid : String) (y sm tt : Int) (latest : Bool)
    (now : Int) : DBState × Except TErr Unit :=
  ({ st with published := publishTerm st.published uid y sm tt latest now }, .ok ())

/-- Embedding of PUT /timetables/sync (timetable.ts lines 336-439).  Returns
the database state left behind together with the HTTP outcome, because the
handler mutates the store before it can still fail: the DELETE is committed
before the insert statements are built, so a day-validation error (or a
failing insert batch) leaves the term already emptied while the request is
answered with the catch-all 500 `syncFailed`.  The optional publishLatest
step runs inside its own try/catch whose failure is only logged; `pubFails`
is the oracle telling whether that store operation throws. -/
def syncHandler (st : DBState) (req : SyncReq) (pubFails : Bool) (now : Int) :
    DBState × Except TErr SyncResponse :=
  let st1 : DBState :=
    { st with entries := deleteTerm st.entries req.uid req.year req.semester req.subTerm }
  match buildRows req req.entries with
  | .error _ => (st1, .error .syncFailed)
  | .ok rows =>
    match insertBatch st1.entries rows with
    | .error _ => (st1, .error .syncFailed)
    | .ok table =>
      let st2 : DBState := { st1 with entries := table }
      let st3 : DBState :=
        if req.publishLatest && !pubFails then
          { st2 with published :=
              publishTerm st2.published req.uid req.year req.semester req.subTerm true now }
        else st2
      let n := req.entries.length
      (st3, .ok { success := true, deleted := true, inserted := n,
                  message := mkSyncMessage n req.year req.semester req.subTerm })

/-- Where the publishLatest step of a sync stops.  The step runs two store
statements inside its own try/catch (timetable.ts lines 409-426): first the
upsert INSERT ... ON CONFLICT (lines 412-417), then the clear-siblings UPDATE
(lines 418-422), each awaited and committed on its own — there is no
surrounding transaction.  An attempt therefore either completes, throws
before the first statement takes effect, or throws between the two (upsert
committed, clear not).  A throw after both statements leaves exactly the
completed state, so `completed` covers it. -/
inductive PubAttempt where
  | completed
  | failedBefore
  | failedBetween
deriving DecidableEq

/-- The publication index the publishLatest step leaves behind for each stop
point. -/
def pubStepResult (rows : List PublishedRow) (uid : String) (y sm tt now : Int) :
    PubAttempt → List PublishedRow
  | .completed => publishTerm rows uid y sm tt true now
  | .failedBefore => rows
  | .failedBetween => publishUpsert rows uid y sm tt true now

/-- Embedding of PUT /timetables/sync with the publishLatest step's failure
point made explicit: identical to `syncHandler` except that the try/catch
around the publish step (whose failure is only `console.warn`-logged) is
refined from an all-or-nothing oracle into the three stop points of
`PubAttempt`. -/
def syncHandlerFull (st : DBState) (req : SyncReq) (att : PubAttempt) (now : Int) :
    DBState × Except TErr SyncResponse :=
  let st1 : DBState :=
    { st with entries := deleteTerm st.entries req.uid req.year req.semester req.subTerm }
  match buildRows req req.entries with
  | .error _ => (st1, .error .syncFailed)
  | .ok rows =>
    match insertBatch st1.entries rows with
    | .error _ => (st1, .error .syncFailed)
    | .ok table =>
      let st2 : DBState := { st1 with entries := table }
      let st3 : DBState :=
        if req.publishLatest then
          { st2 with published :=
              pubStepResult st2.published req.uid req.year req.semester req.subTerm now att }
        else st2
      let n := req.entries.length
      (st3, .ok { success := true, deleted := true, inserted := n,
                  message := mkSyncMessage n req.year req.semester req.subTerm })

/-- One entry of a read response (timetable.ts lines 298-310).  The handler
emits every value under both a canonical and a legacy-aliased field name with
identical content (`sub_term`/`subTerm`, `course_code`/`courseCode`, ...);
the embedding keeps each value once. -/
structure RespEntry where
  sub_term : Int
  day : String
  dayNum : Int
  period : Int
  course_code : String
  course_name : String
  instructor : String
deriving DecidableEq

/-- Rendering one stored row into a response entry; `dayNumToKey` throws the
fatal 500 when the stored day is outside 1..5. -/
def toRespEntry (r : EntryRow) : Except TErr RespEntry := do
  let k ← dayNumToKey r.day
  .ok { sub_term := r.sub_term
        day := k
        dayNum := r.day
        period := r.period
        course_code := r.course_code.getD ""
        course_name := r.course_name.getD ""
        instructor := r.instructor.getD "" }

/-- Rendering a whole row list (the `rows.map(...)`); the first out-of-range
stored day aborts the request. -/
def renderRows : List EntryRow → Except TErr (List RespEntry)
  | [] => .ok []
  | r :: rest => do
    let x ← toRespEntry r
    let xs ← renderRows rest
    .ok (x :: xs)

/-- The comparison used by `ORDER BY day, period`: lexicographic on
(day, period). -/
def rowLE (a b : EntryRow) : Bool :=
  a.day < b.day || (a.day == b.day && a.period ≤ b.period)

/-- Insertion step of the deterministic model of `ORDER BY day, period`. -/
def insertRow (a : EntryRow) : List EntryRow → List EntryRow
  | [] => [a]
  | b :: rest => if rowLE a b then a :: b :: rest else b :: insertRow a rest

/-- Deterministic model of `ORDER BY day, period` (insertion sort; ties in
(day, period) cannot occur among rows of one term under the table's primary
key, so any stable choice is faithful). -/
def sortRows : List EntryRow → List EntryRow
  | [] => []
  | a :: rest => insertRow a (sortRows rest)

/-- The entry fetch of GET /timetables/:userId (timetable.ts lines 279-310):
select the rows of one (owner, year, semester, sub_term), order them by
(day, period) and render them. -/
def fetchTermEntries (st : DBState) (owner : String) (y sm tt : Int) :
    Except TErr (List RespEntry) :=
  renderRows (sortRows (st.entries.filter (fun r =>
    r.user_id == owner && r.year == y && r.semester == sm && r.sub_term == tt)))

/-- Model of `ORDER BY published_at DESC LIMIT 1`: the first row (in table
order) holding the maximal `published_at`.  SQLite leaves the choice among
ties unspecified; the model fixes one deterministically. -/
def pickMostRecent : List PublishedRow → Option PublishedRow
  | [] => none
  | r :: rest =>
    match pickMostRecent rest with
    | none => some r
    | some b => if b.published_at > r.published_at then some b else some r

/-- The term resolution of GET /timetables/:userId when the query names no
complete term (timetable.ts lines 249-276): first the owner's row with
`is_latest=1` (most recent such), else the owner's most recently published
row, else nothing. -/
def resolveLatest (rows : List PublishedRow) (owner : String) : Option PublishedRow :=
  let mine := rows.filter (fun r => r.user_id == owner)
  match pickMostRecent (mine.filter (fun r => r.is_latest == 1)) with
  | some r => some r
  | none => pickMostRecent mine

/-- One element of `available_terms` (the published-terms listing). -/
structure TermInfo where
  year : Int
  semester : Int
  subTerm : Int
  isLatest : Int
  publishedAt : Int
deriving DecidableEq

/-- Comparator of `ORDER BY is_latest DESC, published_at DESC`. -/
def pubBefore (a b : PublishedRow) : Bool :=
  b.is_latest < a.is_latest || (a.is_latest == b.is_latest && b.published_at ≤ a.published_at)

/-- Insertion step of the published-terms ordering. -/
def insertPub (a : PublishedRow) : List PublishedRow → List PublishedRow
  | [] => [a]
  | b :: rest => if pubBefore a b then a :: b :: rest else b :: insertPub a rest

/-- Deterministic model of `ORDER BY is_latest DESC, published_at DESC`. -/
def sortPub : List PublishedRow → List PublishedRow
  | [] => []
  | a :: rest => insertPub a (sortPub rest)

/-- The `available_terms` query (timetable.ts lines 313-320): the owner's
published terms, latest-flagged first, then most recent first, with
`is_latest` normalised to 0/1 by the `CASE WHEN`. -/
def listTerms (rows : List PublishedRow) (owner : String) : List TermInfo :=
  (sortPub (rows.filter (fun r => r.user_id == owner))).map (fun r =>
    { year := r.year, semester := r.semester, subTerm := r.sub_term,
      isLatest := if r.is_latest == (1 : Int) then 1 else 0,
      publishedAt := r.published_at })

/-- A fully specified term of the query string / of `meta.selected`. -/
structure Term where
  year : Int
  semester : Int
  subTerm : Int
deriving DecidableEq

/-- The `settings` object of a read response: booleans re-encoded as 0/1, the
raw serialized colors passed through. -/
structure SettingsOut where
  is_public : Int
  allow_copy : Int
  allow_followers : Int
  custom_colors : Option String
deriving DecidableEq

/-- The JSON body of a successful GET /timetables/:userId. -/
structure GetResponse where
  entries : List RespEntry
  settings : SettingsOut
  available_terms : List TermInfo
  selected : Option Term
deriving DecidableEq

/-- The settings flags as the read handler derives them (timetable.ts lines
232-235): strict `=== 1` comparisons, so a missing settings row yields
public=false, copy=false, followers=false — the fail-closed defaults. -/
def settingsOut (st : DBState) (owner : String) : SettingsOut :=
  match settingsFor st owner with
  | some r =>
    { is_public := if r.is_public == 1 then 1 else 0,
      allow_copy := if r.allow_copy == 1 then 1 else 0,
      allow_followers := if r.allow_followers == 1 then 1 else 0,
      custom_colors := r.custom_colors }
  | none =>
    { is_public := 0, allow_copy := 0, allow_followers := 0, custom_colors := none }

/-- The visibility gate of the read handler (timetable.ts lines 237-247),
given the derived flags.  `viewer` is the authenticated caller identity, or
`none` when the request carries no valid token. -/
def visibilityGate (isPub allowF : Bool) (follows : List (String × String))
    (viewer : Option String) (owner : String) : Except TErr Unit :=
  if isPub then .ok ()
  else
    match viewer with
    | none => .error .privateTimetable
    | some v =>
      if v == owner then .ok ()
      else if !allowF then .error .privateTimetable
      else if (v, owner) ∈ follows then .ok ()
      else .error .privateTimetable

/-- Embedding of GET /timetables/:userId (timetable.ts lines 189-328).
`qTerm` is `some t` when the query fully specifies year/semester/subTerm and
`none` otherwise (any missing or non-numeric component makes every one of the
three `NaN` checks trigger the publication-index resolution).  The handler:
reads the settings (missing row ⇒ all flags false), runs the visibility gate,
resolves the term, and either returns the fixed empty payload (never-published
owner) or fetches, orders and renders the term's entries. -/
def getBody (st : DBState) (owner : String) (qTerm : Option Term) :
    Except TErr GetResponse :=
  match qTerm with
  | some t => do
    let es ← fetchTermEntries st owner t.year t.semester t.subTerm
    .ok { entries := es, settings := settingsOut st owner,
          available_terms := listTerms st.published owner, selected := some t }
  | none =>
    match resolveLatest st.published owner with
    | some r => do
      let es ← fetchTermEntries st owner r.year r.semester r.sub_term
      .ok { entries := es, settings := settingsOut st owner,
            available_terms := listTerms st.published owner,
            selected := some { year := r.year, semester := r.semester, subTerm := r.sub_term } }
    | none =>
      .ok { entries := [], settings := settingsOut st owner,
            available_terms := [], selected := none }

/-- The whole read handler: gate first, body after. -/
def getTimetable (st : DBState) (viewer : Option String) (owner : String)
    (qTerm : Option Term) : Except TErr GetResponse := do
  visibilityGate ((settingsOut st owner).is_public == 1)
    ((settingsOut st owner).allow_followers == 1) st.follows viewer owner
  getBody st owner qTerm

/-- The JSON body of a successful POST /timetables/copy/:sourceUserId. -/
structure CopyResponse where
  success : Bool
  copied : Nat
deriving DecidableEq

/-- The copy permission of the source user as the copy handler checks it:
a settings row must exist with `is_public = 1` and `allow_copy = 1`. -/
def copyAllowed (st : DBState) (src : String) : Bool :=
  match settingsFor st src with
  | none => false
  | some r => r.is_public == 1 && r.allow_copy == 1

/-- The settings upsert at the end of the copy handler (timetable.ts lines
684-691): INSERT with is_public=0, allow_copy=0, allow_followers defaulting
to 1, or on conflict update only custom_colors. -/
def upsertSettingsColors (rows : List SettingsRow) (uid : String)
    (colors : Option String) : List SettingsRow :=
  if rows.any (fun r => r.user_id == uid) then
    rows.map (fun r => if r.user_id == uid then { r with custom_colors := colors } else r)
  else
    rows ++ [{ user_id := uid, is_public := 0, allow_copy := 0,
               allow_followers := 1, custom_colors := colors }]

/-- Embedding of POST /timetables/copy/:sourceUserId (timetable.ts lines
636-694): check the source's settings (403 before any write), then delete the
caller's rows of the term, re-insert the source's rows of the term under the
caller's id, and copy the source's custom colors into the caller's settings. -/
def copyHandler (st : DBState) (uid src : String) (y sm tt : Int) :
    DBState × Except TErr CopyResponse :=
  match settingsFor st src with
  | none => (st, .error .copyNotAllowed)
  | some sett =>
    if !(sett.is_public == 1 && sett.allow_copy == 1) then
      (st, .error .copyNotAllowed)
    else
      let st1 : DBState := { st with entries := deleteTerm st.entries uid y sm tt }
      let srcRows := sortRows (st1.entries.filter (fun r =>
        r.user_id == src && r.year == y && r.semester == sm && r.sub_term == tt))
      let newRows := srcRows.map (fun r => { r with user_id := uid })
      match insertBatch st1.entries newRows with
      | .error _ => (st1, .error .dbError)
      | .ok table =>
        let st2 : DBState := { st1 with entries := table }
        let st3 : DBState :=
          { st2 with settings := upsertSettingsColors st2.settings uid sett.custom_colors }
        (st3, .ok { success := true, copied := newRows.length })

/-- Concrete fixture: a stored entry of owner "u" in term (2025, 1, 0). -/
def sampleRow : EntryRow :=
  { user_id := "u", year := 2025, semester := 1, sub_term := 0, day := 1, period := 1,
    course_code := some "CS101", course_name := none, instructor := none }

/-- Concrete fixture: a store holding just `sampleRow`. -/
def sampleState : DBState :=
  { entries := [sampleRow], published := [], settings := [], follows := [] }

/-- Concrete fixture: a sync request of owner "u" for term (2025, 1, 0) whose
single entry has the undecodable day string "x". -/
def badDayReq : SyncReq :=
  { uid := "u", year := 2025, semester := 1, subTerm := 0,
    entries := [{ year := none, semester := none, subTerm := none, day := .str "x",
                  period := 1, courseCode := some "CS101", courseName := none,
                  instructor := none }],
    publishLatest := false }

/-- Concrete fixture: a sync request of owner "u" for term (2025, 1, 0) with
publishLatest set and one valid entry. -/
def pubReq : SyncReq :=
  { uid := "u", year := 2025, semester := 1, subTerm := 0,
    entries := [{ year := none, semester := none, subTerm := none, day := .str "m",
                  period := 1, courseCode := some "CS101", courseName := none,
                  instructor := none }],
    publishLatest := true }

/-- Concrete fixture: a sync request whose single entry carries the JSON
number 6 as its day. -/
def day6Req : SyncReq :=
  { uid := "u", year := 2025, semester := 1, subTerm := 0,
    entries := [{ year := none, semester := none, subTerm := none, day := .num 6,
                  period := 1, courseCode := some "CS101", courseName := none,
                  instructor := none }],
    publishLatest := false }

/-- Entries of the store are well formed when every stored day is in 1..5
(what the read path's `dayNumToKey` assumes). -/
def entriesWF (st : DBState) : Prop :=
  ∀ r ∈ st.entries, 1 ≤ r.day ∧ r.day ≤ 5

/-- Sortedness by (day, period), the `ORDER BY day, period` contract of the
entry fetch. -/
def sortedRows : List EntryRow → Bool
  | [] => true
  | [_] => true
  | a :: b :: t => rowLE a b && sortedRows (b :: t)

/-- Concrete fixture: a sync request whose single entry overrides the
sub-term (`subTerm := 99`) relative to the request-level term (2025, 1, 0). -/
def overrideReq : SyncReq :=
  { uid := "u", year := 2025, semester := 1, subTerm := 0,
    entries := [{ year := none, semester := none, subTerm := some 99, day := .str "m",
                  period := 1, courseCode := some "CS101", courseName := none,
                  instructor := none }],
    publishLatest := false }

/-- Concrete fixture: a well-behaved sync request (no term overrides, valid
day) for term (2025, 1, 0). -/
def goodReq : SyncReq :=
  { uid := "u", year := 2025, semester := 1, subTerm := 0,
    entries := [{ year := none, semester := none, subTerm := none, day := .num 2,
                  period := 3, courseCode := some "ALG", courseName := none,
                  instructor := none }],
    publishLatest := false }

/-- The stored row `goodReq`'s entry builds into. -/
def goodRow : EntryRow :=
  { user_id := "u", year := 2025, semester := 1, sub_term := 0, day := 2, period := 3,
    course_code := some "ALG", course_name := none, instructor := none }

/-- The store after running `goodReq` against `sampleState`. -/
def c4End : DBState :=
  { entries := [goodRow], published := [], settings := [], follows := [] }

/-- Concrete fixture: a private store of owner "u" with followers-view
enabled and one active follower "w". -/
def c5State : DBState :=
  { entries := [sampleRow], published := [],
    settings := [{ user_id := "u", is_public := 0, allow_copy := 0,
                   allow_followers := 1, custom_colors := none }],
    follows := [("w", "u")] }

/-- Concrete fixture: a store where owner "u" has one published term flagged
latest. -/
def c2State : DBState :=
  { entries := [],
    published := [{ user_id := "u", year := 2024, semester := 1, sub_term := 0,
                    is_latest := 1, published_at := 0 }],
    settings := [], follows := [] }

/-- Decidable test for a failed `Except`. -/
def isErr {α : Type} : Except TErr α → Bool
  | .error _ => true
  | .ok _ => false

/-- A publish-affecting operation of one owner: PUT /timetables/publish with
any `latest` flag, or PUT /timetables/sync with `publishLatest` set (its
publish step always pins as latest). -/
inductive PubOp where
  | publish (y sm tt : Int) (latest : Bool) (now : Int)
  | syncPub (y sm tt : Int) (entries : List SyncEntry) (now : Int)
deriving DecidableEq

/-- Running one publish-affecting endpoint call against the store (the sync
variant runs with `publishLatest := true` and a completing store, honouring
the claim's "applied sequentially"). -/
def applyOp (st : DBState) (uid : String) : PubOp → DBState
  | .publish y sm tt latest now => (publishHandler st uid y sm tt latest now).1
  | .syncPub y sm tt es now =>
    (syncHandler st { uid := uid, year := y, semester := sm, subTerm := tt,
                      entries := es, publishLatest := true } false now).1

/-- Running a finite sequence of publish-affecting endpoint calls. -/
def applyOps (st : DBState) (uid : String) (ops : List PubOp) : DBState :=
  ops.foldl (fun s op => applyOp s uid op) st

/-- How many published-term rows of the owner are flagged latest. -/
def latestCount (rows : List PublishedRow) (uid : String) : Nat :=
  (rows.filter (fun r => r.user_id == uid && r.is_latest == (1 : Int))).length

/-- The primary-key uniqueness of `timetable_published_terms`, which the
backing store enforces. -/
def pubKeysNodup (rows : List PublishedRow) : Prop :=
  (rows.map publishedKey).Nodup

section Lemmas

/-- Reduction of a monadic bind on a successful `Except`. -/
@[simp] theorem except_bind_ok {α β : Type} (a : α) (f : α → Except TErr β) :
    (Except.ok a >>= f) = f a := rfl

/-- Reduction of a monadic bind on a failed `Except`. -/
@[simp] theorem except_bind_error {α β : Type} (e : TErr) (f : α → Except TErr β) :
    ((Except.error e : Except TErr α) >>= f) = Except.error e := rfl

/-- If some entry's day fails to decode, the whole statement construction of
the sync handler fails. -/
theorem buildRows_error_of_mem (req : SyncReq) (l : List SyncEntry) (e : SyncEntry)
    (he : e ∈ l) (hd : isErr (dayKeyToNum e.day) = true) :
    ∃ err, buildRows req l = .error err := by
  induction l with
  | nil => cases he
  | cons a rest ih =>
    rcases List.mem_cons.mp he with h | h
    · subst h
      cases hval : dayKeyToNum e.day with
      | ok d => rw [hval] at hd; simp [isErr] at hd
      | error err0 =>
        exact ⟨err0, by simp [buildRows, buildRow, hval]⟩
    · rcases ih h with ⟨err, herr⟩
      cases hba : buildRow req a with
      | error err2 => exact ⟨err2, by simp [buildRows, hba]⟩
      | ok r => exact ⟨err, by simp [buildRows, hba, herr]⟩

/-- Deleting a term leaves no row of that term behind. -/
theorem deleteTerm_filter_nil (tab : List EntryRow) (uid : String) (y sm tt : Int) :
    (deleteTerm tab uid y sm tt).filter (fun r =>
      r.user_id == uid && r.year == y && r.semester == sm && r.sub_term == tt) = [] := by
  simp only [deleteTerm, List.filter_filter]
  apply List.filter_eq_nil_iff.mpr
  intro r _
  cases h : (r.user_id == uid && r.year == y && r.semester == sm && r.sub_term == tt) <;>
    simp [h]

/-- Clearing siblings does not touch any primary key. -/
theorem map_key_clearOthers (rows : List PublishedRow) (uid : String) (y sm tt : Int) :
    (clearOthers rows uid y sm tt).map publishedKey = rows.map publishedKey := by
  unfold clearOthers
  rw [List.map_map]
  apply List.map_congr_left
  intro r _
  simp only [Function.comp_apply]
  split <;> rfl

/-- The publish upsert maps the key multiset to itself, or appends the one
fresh key when the row did not exist. -/
theorem map_key_publishUpsert (rows : List PublishedRow) (uid : String)
    (y sm tt : Int) (latest : Bool) (now : Int) :
    (publishUpsert rows uid y sm tt latest now).map publishedKey = rows.map publishedKey ∨
    ((publishUpsert rows uid y sm tt latest now).map publishedKey =
        rows.map publishedKey ++ [(uid, y, sm, tt)] ∧
      (uid, y, sm, tt) ∉ rows.map publishedKey) := by
  unfold publishUpsert
  by_cases hx : rows.any (fun r => publishedKey r == (uid, y, sm, tt)) = true
  · left
    rw [if_pos hx, List.map_map]
    apply List.map_congr_left
    intro r _
    simp only [Function.comp_apply]
    split <;> rfl
  · right
    rw [if_neg hx]
    constructor
    · simp [publishedKey]
    · intro hmem
      rcases List.mem_map.mp hmem with ⟨r, hr, hkey⟩
      have hx' : rows.any (fun r => publishedKey r == (uid, y, sm, tt)) = false := by
        simpa using hx
      exact List.any_eq_false.mp hx' r hr (by simp [hkey])

/-- Primary-key uniqueness is preserved by the publish transition. -/
theorem pubKeysNodup_publishTerm (rows : List PublishedRow) (uid : String)
    (y sm tt : Int) (latest : Bool) (now : Int) (h : pubKeysNodup rows) :
    pubKeysNodup (publishTerm rows uid y sm tt latest now) := by
  unfold publishTerm pubKeysNodup
  have hkeys := map_key_publishUpsert rows uid y sm tt latest now
  have hup : pubKeysNodup (publishUpsert rows uid y sm tt latest now) := by
    unfold pubKeysNodup
    rcases hkeys with hk | ⟨hk, hnotmem⟩
    · rw [hk]; exact h
    · rw [hk]
      rw [List.nodup_append]
      refine ⟨h, List.nodup_singleton _, ?_⟩
      intro a ha hb
      rw [List.mem_singleton] at hb
      exact hnotmem (hb ▸ ha)
  cases latest with
  | true =>
    rw [if_pos rfl]
    unfold pubKeysNodup at hup
    rw [map_key_clearOthers]
    exact hup
  | false =>
    rw [if_neg (by simp)]
    exact hup

/-- A filter can only shrink when its predicate implies another, pointwise on
the list's members. -/
theorem length_filter_le_of_imp {α : Type} (l : List α) (p q : α → Bool)
    (h : ∀ a ∈ l, p a = true → q a = true) :
    (l.filter p).length ≤ (l.filter q).length := by
  induction l with
  | nil => simp
  | cons a t ih =>
    have ht : ∀ x ∈ t, p x = true → q x = true := fun x hx => h x (List.mem_cons_of_mem a hx)
    have iht := ih ht
    by_cases hp : p a = true
    · have hq := h a (List.mem_cons_self a t) hp
      simp [List.filter_cons, hp, hq]
      omega
    · cases hq : q a <;> simp [List.filter_cons, hp, hq] <;> omega

/-- Under primary-key uniqueness, at most one row carries any given key. -/
theorem length_filter_key_le_one (rows : List PublishedRow)
    (k : String × Int × Int × Int) (h : pubKeysNodup rows) :
    (rows.filter (fun r => publishedKey r == k)).length ≤ 1 := by
  induction rows with
  | nil => simp
  | cons a t ih =>
    rw [pubKeysNodup, List.map_cons, List.nodup_cons] at h
    by_cases ha : (publishedKey a == k) = true
    · have hak : publishedKey a = k := by simpa using ha
      have hnil : t.filter (fun r => publishedKey r == k) = [] := by
        apply List.filter_eq_nil_iff.mpr
        intro r hr hc
        have hrk : publishedKey r = k := by simpa using hc
        exact h.1 (hak ▸ hrk ▸ List.mem_map_of_mem publishedKey hr)
      simp [List.filter_cons, ha, hnil]
    · simp only [List.filter_cons, ha, Bool.false_eq_true, if_false]
      exact ih h.2

/-- After a pin-as-latest transition, every latest-flagged row of the owner
carries the pinned key. -/
theorem latest_key_after_publishTerm (rows : List PublishedRow) (uid : String)
    (y sm tt : Int) (now : Int) (r : PublishedRow)
    (hr : r ∈ publishTerm rows uid y sm tt true now)
    (hu : r.user_id = uid) (hl : r.is_latest = 1) :
    publishedKey r = (uid, y, sm, tt) := by
  have hr' : r ∈ (publishUpsert rows uid y sm tt true now).map (fun x =>
      if x.user_id == uid && !(x.year == y && x.semester == sm && x.sub_term == tt)
      then { x with is_latest := 0 } else x) := by
    simpa [publishTerm, clearOthers] using hr
  rcases List.mem_map.mp hr' with ⟨x, hx, hfx⟩
  by_cases hc : (x.user_id == uid &&
      !(x.year == y && x.semester == sm && x.sub_term == tt)) = true
  · rw [if_pos hc] at hfx
    exfalso
    rw [← hfx] at hl
    simp at hl
  · rw [if_neg hc] at hfx
    subst hfx
    have hterm : (x.year == y && x.semester == sm && x.sub_term == tt) = true := by
      by_contra hterm
      apply hc
      rw [Bool.and_eq_true]
      refine ⟨by simpa using hu, ?_⟩
      have hfalse : (x.year == y && x.semester == sm && x.sub_term == tt) = false :=
        Bool.eq_false_iff.mpr hterm
      rw [hfalse]
      rfl
    simp only [Bool.and_eq_true, beq_iff_eq] at hterm
    simp [publishedKey, hu, hterm.1.1, hterm.1.2, hterm.2]

/-- A pin-as-latest transition leaves at most one latest row for the owner,
whatever the count was before, provided keys are unique. -/
theorem latestCount_publishTerm_true (rows : List PublishedRow) (uid : String)
    (y sm tt : Int) (now : Int) (h : pubKeysNodup rows) :
    latestCount (publishTerm rows uid y sm tt true now) uid ≤ 1 := by
  have hnd := pubKeysNodup_publishTerm rows uid y sm tt true now h
  unfold latestCount
  calc ((publishTerm rows uid y sm tt true now).filter
          (fun r => r.user_id == uid && r.is_latest == (1 : Int))).length
      ≤ ((publishTerm rows uid y sm tt true now).filter
          (fun r => publishedKey r == (uid, y, sm, tt))).length := by
        apply length_filter_le_of_imp
        intro r hr hp
        rw [Bool.and_eq_true, beq_iff_eq, beq_iff_eq] at hp
        simpa using latest_key_after_publishTerm rows uid y sm tt now r hr hp.1 hp.2
    _ ≤ 1 := length_filter_key_le_one _ _ hnd

/-- The latest count only looks at user_id and is_latest, so a row map
preserving both preserves it. -/
theorem latestCount_map_eq (rows : List PublishedRow) (f : PublishedRow → PublishedRow)
    (hf : ∀ r, (f r).user_id = r.user_id ∧ (f r).is_latest = r.is_latest) (uid : String) :
    latestCount (rows.map f) uid = latestCount rows uid := by
  unfold latestCount
  induction rows with
  | nil => rfl
  | cons a t ih =>
    by_cases hp : (a.user_id == uid && a.is_latest == (1 : Int)) = true
    · simp [List.filter_cons, (hf a).1, (hf a).2, hp, ih]
    · simp [List.filter_cons, (hf a).1, (hf a).2, hp, ih]

/-- A publish without pin-as-latest does not change the owner's latest
count. -/
theorem latestCount_publishTerm_false (rows : List PublishedRow) (uid : String)
    (y sm tt : Int) (now : Int) :
    latestCount (publishTerm rows uid y sm tt false now) uid = latestCount rows uid := by
  have hPT : publishTerm rows uid y sm tt false now =
      publishUpsert rows uid y sm tt false now := by
    simp [publishTerm]
  rw [hPT]
  unfold publishUpsert
  by_cases hx : rows.any (fun r => publishedKey r == (uid, y, sm, tt)) = true
  · rw [if_pos hx]
    apply latestCount_map_eq
    intro r
    split <;> simp
  · rw [if_neg hx]
    unfold latestCount
    rw [List.filter_append]
    simp

/-- The sync handler either leaves the publication index alone (no
publishLatest, validation failure, batch failure, or a failing publish step)
or applies exactly the pin-as-latest transition. -/
theorem syncHandler_published (st : DBState) (req : SyncReq) (pf : Bool) (now : Int) :
    (syncHandler st req pf now).1.published = st.published ∨
    (syncHandler st req pf now).1.published =
      publishTerm st.published req.uid req.year req.semester req.subTerm true now := by
  unfold syncHandler
  cases hb : buildRows req req.entries with
  | error e => left; simp [hb]
  | ok rows =>
    cases hi : insertBatch (deleteTerm st.entries req.uid req.year req.semester req.subTerm)
        rows with
    | error e => left; simp [hb, hi]
    | ok table =>
      by_cases hp : (req.publishLatest && !pf) = true
      · right; simp [hb, hi, hp]
      · left; simp [hb, hi, hp]

/-- One publish-affecting endpoint call preserves primary-key uniqueness and
the at-most-one-latest invariant. -/
theorem inv_applyOp (st : DBState) (uid : String) (op : PubOp)
    (hn : pubKeysNodup st.published) (hc : latestCount st.published uid ≤ 1) :
    pubKeysNodup (applyOp st uid op).published ∧
    latestCount (applyOp st uid op).published uid ≤ 1 := by
  cases op with
  | publish y sm tt latest now =>
    have hpub : (applyOp st uid (.publish y sm tt latest now)).published =
        publishTerm st.published uid y sm tt latest now := rfl
    rw [hpub]
    refine ⟨pubKeysNodup_publishTerm _ _ _ _ _ _ _ hn, ?_⟩
    cases latest with
    | false => rw [latestCount_publishTerm_false]; exact hc
    | true => exact latestCount_publishTerm_true _ _ _ _ _ _ hn
  | syncPub y sm tt es now =>
    simp only [applyOp]
    rcases syncHandler_published st
        { uid := uid, year := y, semester := sm, subTerm := tt,
          entries := es, publishLatest := true } false now with h | h
    · rw [h]; exact ⟨hn, hc⟩
    · rw [h]
      exact ⟨pubKeysNodup_publishTerm _ _ _ _ _ _ _ hn,
             latestCount_publishTerm_true _ _ _ _ _ _ hn⟩

/-- Inserting into the order-by model yields a permutation. -/
theorem insertRow_perm (a : EntryRow) (l : List EntryRow) :
    (insertRow a l).Perm (a :: l) := by
  induction l with
  | nil => simp [insertRow]
  | cons b t ih =>
    unfold insertRow
    by_cases h : rowLE a b = true
    · rw [if_pos h]
    · rw [if_neg h]
      exact (List.Perm.cons b ih).trans (List.Perm.swap a b t)

/-- The order-by model permutes its input. -/
theorem sortRows_perm (l : List EntryRow) : (sortRows l).Perm l := by
  induction l with
  | nil => simp [sortRows]
  | cons a t ih =>
    exact (insertRow_perm a (sortRows t)).trans (List.Perm.cons a ih)

/-- The (day, period) comparison is total. -/
theorem rowLE_total (a b : EntryRow) : rowLE a b = true ∨ rowLE b a = true := by
  unfold rowLE
  simp only [Bool.or_eq_true, Bool.and_eq_true, decide_eq_true_eq, beq_iff_eq]
  omega

/-- Inserting into a sorted list keeps it sorted. -/
theorem insertRow_sorted (a : EntryRow) (l : List EntryRow) (h : sortedRows l = true) :
    sortedRows (insertRow a l) = true := by
  induction l with
  | nil => simp [insertRow, sortedRows]
  | cons b t ih =>
    unfold insertRow
    by_cases hab : rowLE a b = true
    · rw [if_pos hab]
      show sortedRows (a :: b :: t) = true
      simp [sortedRows, hab, h]
    · rw [if_neg hab]
      have hba : rowLE b a = true := (rowLE_total a b).resolve_left hab
      cases t with
      | nil => simp [insertRow, sortedRows, hba]
      | cons c t2 =>
        have hbc : rowLE b c = true := by
          have h2 := h
          simp [sortedRows] at h2
          exact h2.1
        have ht : sortedRows (c :: t2) = true := by
          have h2 := h
          simp [sortedRows] at h2
          simpa [sortedRows] using h2.2
        have iht := ih ht
        by_cases hac : rowLE a c = true
        · show sortedRows (b :: insertRow a (c :: t2)) = true
          unfold insertRow
          rw [if_pos hac]
          simp [sortedRows, hba, hac, ht]
        · show sortedRows (b :: insertRow a (c :: t2)) = true
          unfold insertRow
          rw [if_neg hac]
          have htail : sortedRows (c :: insertRow a t2) = true := by
            have h2 := iht
            unfold insertRow at h2
            rw [if_neg hac] at h2
            exact h2
          cases hi : insertRow a t2 with
          | nil => simp [sortedRows, hbc]
          | cons d t3 =>
            rw [hi] at htail
            simp [sortedRows, hbc]
            simpa [sortedRows] using htail

/-- The order-by model produces a (day, period)-sorted list. -/
theorem sortRows_sorted (l : List EntryRow) : sortedRows (sortRows l) = true := by
  induction l with
  | nil => rfl
  | cons a t ih => exact insertRow_sorted a (sortRows t) ih

/-- Rendering succeeds on any list of rows whose days are all in 1..5. -/
theorem renderRows_ok_of_wf (l : List EntryRow)
    (h : ∀ r ∈ l, 1 ≤ r.day ∧ r.day ≤ 5) : ∃ L, renderRows l = .ok L := by
  induction l with
  | nil => exact ⟨[], rfl⟩
  | cons r t ih =>
    obtain ⟨L, hL⟩ := ih (fun x hx => h x (List.mem_cons_of_mem r hx))
    have hr := h r (List.mem_cons_self r t)
    have hnotout : ¬(r.day < 1 ∨ r.day > 5) := by omega
    obtain ⟨s, hs⟩ : ∃ s, dayNumToKey r.day = .ok s := by
      unfold dayNumToKey
      rw [if_neg hnotout]
      exact ⟨_, rfl⟩
    obtain ⟨x, hx⟩ : ∃ x, toRespEntry r = .ok x :=
      ⟨{ sub_term := r.sub_term, day := s, dayNum := r.day, period := r.period,
         course_code := r.course_code.getD "", course_name := r.course_name.getD "",
         instructor := r.instructor.getD "" },
       by unfold toRespEntry; rw [hs]; rfl⟩
    exact ⟨x :: L, by simp [renderRows, hx, hL]⟩

/-- A successful insert batch appends exactly its rows to the table. -/
theorem insertBatch_ok_eq (t rows u : List EntryRow)
    (h : insertBatch t rows = .ok u) : u = t ++ rows := by
  induction rows generalizing t with
  | nil =>
    unfold insertBatch at h
    injection h with h2
    simp [h2.symm]
  | cons r rest ih =>
    unfold insertBatch at h
    by_cases hc : (t.any fun x => entryKey x == entryKey r) = true
    · rw [if_pos hc] at h; cases h
    · rw [if_neg hc] at h
      rw [ih (t ++ [r]) h]
      simp

/-- Every row produced by a successful statement construction comes from one
of the request's entries. -/
theorem buildRows_ok_mem (req : SyncReq) (l : List SyncEntry) (rows : List EntryRow)
    (h : buildRows req l = .ok rows) :
    ∀ r ∈ rows, ∃ e ∈ l, buildRow req e = .ok r := by
  induction l generalizing rows with
  | nil =>
    unfold buildRows at h
    injection h with h2
    intro r hr
    rw [← h2] at hr
    cases hr
  | cons e rest ih =>
    unfold buildRows at h
    cases hbe : buildRow req e with
    | error err => rw [hbe] at h; simp at h
    | ok r0 =>
      rw [hbe] at h
      cases hbr : buildRows req rest with
      | error err => rw [hbr] at h; simp at h
      | ok rs =>
        rw [hbr] at h
        simp only [except_bind_ok] at h
        injection h with h2
        intro r hr
        rw [← h2] at hr
        rcases List.mem_cons.mp hr with h1 | h1
        · exact ⟨e, List.mem_cons_self e rest, h1 ▸ hbe⟩
        · rcases ih rs hbr r h1 with ⟨e2, he2, hbe2⟩
          exact ⟨e2, List.mem_cons_of_mem e he2, hbe2⟩

/-- Rows built by the sync handler always carry the authenticated uid. -/
theorem buildRow_uid (req : SyncReq) (e : SyncEntry) (r : EntryRow)
    (h : buildRow req e = .ok r) : r.user_id = req.uid := by
  unfold buildRow at h
  cases hd : dayKeyToNum e.day with
  | error err => rw [hd] at h; simp at h
  | ok d =>
    rw [hd] at h
    simp only [except_bind_ok] at h
    injection h with h2
    rw [← h2]

/-- The state a successful sync leaves behind holds exactly the batch-built
entry table. -/
theorem syncHandler_ok_entries (st : DBState) (req : SyncReq) (pf : Bool) (now : Int)
    (rows table : List EntryRow) (st2 : DBState) (resp : SyncResponse)
    (hrows : buildRows req req.entries = .ok rows)
    (hi : insertBatch (deleteTerm st.entries req.uid req.year req.semester req.subTerm)
        rows = .ok table)
    (hsync : syncHandler st req pf now = (st2, .ok resp)) :
    st2.entries = table := by
  unfold syncHandler at hsync
  simp only [hrows, hi] at hsync
  rw [Prod.mk.injEq] at hsync
  rw [← hsync.1]
  split <;> rfl

/-- The owner always passes the visibility gate, public or not. -/
theorem gate_self_ok (p f : Bool) (fl : List (String × String)) (owner : String) :
    visibilityGate p f fl (some owner) owner = .ok () := by
  unfold visibilityGate
  cases p <;> simp

/-- An anonymous read of a non-public timetable is denied. -/
theorem gate_anon_denied (f : Bool) (fl : List (String × String)) (owner : String) :
    visibilityGate false f fl none owner = .error .privateTimetable := by
  unfold visibilityGate
  simp

/-- A non-owner who is not an active follower is denied on a non-public
timetable, whatever the followers-view flag says. -/
theorem gate_nonfollower_denied (f : Bool) (fl : List (String × String))
    (v owner : String) (hv : (v == owner) = false)
    (hc : (v, owner) ∉ fl) :
    visibilityGate false f fl (some v) owner = .error .privateTimetable := by
  unfold visibilityGate
  cases f <;> simp [hv, hc]

/-- A follower passes the gate of a non-public timetable iff followers-view
is on: the allowed side. -/
theorem gate_follower_allowed (fl : List (String × String)) (v owner : String)
    (hv : (v == owner) = false) (hc : (v, owner) ∈ fl) :
    visibilityGate false true fl (some v) owner = .ok () := by
  unfold visibilityGate
  simp [hv, hc]

/-- With followers-view off, every non-owner is denied on a non-public
timetable, follower or not. -/
theorem gate_followers_disabled (fl : List (String × String)) (v owner : String)
    (hv : (v == owner) = false) :
    visibilityGate false false fl (some v) owner = .error .privateTimetable := by
  unfold visibilityGate
  simp [hv]

/-- A failing gate makes the whole read fail with the same error. -/
theorem getTimetable_gate_error (st : DBState) (viewer : Option String)
    (owner : String) (q : Option Term) (er : TErr)
    (h : visibilityGate ((settingsOut st owner).is_public == 1)
      ((settingsOut st owner).allow_followers == 1) st.follows viewer owner = .error er) :
    getTimetable st viewer owner q = .error er := by
  unfold getTimetable
  rw [h]
  rfl

/-- The entry fetch succeeds whenever the stored days are all in range. -/
theorem fetchTermEntries_ok (st : DBState) (owner : String) (y sm tt : Int)
    (hwf : entriesWF st) : ∃ L, fetchTermEntries st owner y sm tt = .ok L := by
  unfold fetchTermEntries
  apply renderRows_ok_of_wf
  intro r hr
  have hmem : r ∈ st.entries.filter (fun r =>
      r.user_id == owner && r.year == y && r.semester == sm && r.sub_term == tt) :=
    (sortRows_perm _).mem_iff.mp hr
  exact hwf r (List.mem_of_mem_filter hmem)

/-- A passing gate makes the whole read succeed on a well-formed store. -/
theorem getTimetable_ok_of_gate (st : DBState) (viewer : Option String)
    (owner : String) (q : Option Term) (hwf : entriesWF st)
    (h : visibilityGate ((settingsOut st owner).is_public == 1)
      ((settingsOut st owner).allow_followers == 1) st.follows viewer owner = .ok ()) :
    ∃ resp, getTimetable st viewer owner q = .ok resp := by
  unfold getTimetable
  rw [h]
  simp only [except_bind_ok]
  cases q with
  | some t =>
    obtain ⟨L, hL⟩ := fetchTermEntries_ok st owner t.year t.semester t.subTerm hwf
    refine ⟨{ entries := L, settings := settingsOut st owner,
              available_terms := listTerms st.published owner, selected := some t }, ?_⟩
    simp [getBody, hL]
  | none =>
    cases hres : resolveLatest st.published owner with
    | some p =>
      obtain ⟨L, hL⟩ := fetchTermEntries_ok st owner p.year p.semester p.sub_term hwf
      refine ⟨{ entries := L, settings := settingsOut st owner,
                available_terms := listTerms st.published owner,
                selected := some { year := p.year, semester := p.semester,
                                   subTerm := p.sub_term } }, ?_⟩
      simp [getBody, hres, hL]
    | none =>
      refine ⟨{ entries := [], settings := settingsOut st owner,
                available_terms := [], selected := none }, ?_⟩
      simp [getBody, hres]

/-- The model of ORDER BY ... LIMIT 1 returns a row on any non-empty row
set. -/
theorem pickMostRecent_isSome (a : PublishedRow) (t : List PublishedRow) :
    (pickMostRecent (a :: t)).isSome = true := by
  unfold pickMostRecent
  cases pickMostRecent t with
  | none => rfl
  | some b =>
    show (if b.published_at > a.published_at then some b else some a).isSome = true
    split <;> rfl

/-- The model of ORDER BY ... LIMIT 1 returns nothing exactly on the empty
row set. -/
theorem pickMostRecent_eq_none (l : List PublishedRow) :
    pickMostRecent l = none ↔ l = [] := by
  cases l with
  | nil => simp [pickMostRecent]
  | cons r t =>
    constructor
    · intro h
      have hs := pickMostRecent_isSome r t
      rw [h] at hs
      cases hs
    · intro h
      cases h

/-- The model of ORDER BY ... LIMIT 1 returns a member of the row set. -/
theorem pickMostRecent_mem (l : List PublishedRow) (r : PublishedRow)
    (h : pickMostRecent l = some r) : r ∈ l := by
  induction l generalizing r with
  | nil => cases h
  | cons a t ih =>
    unfold pickMostRecent at h
    cases hp : pickMostRecent t with
    | none =>
      simp only [hp] at h
      injection h with h2
      exact h2 ▸ List.mem_cons_self a t
    | some b =>
      simp only [hp] at h
      by_cases hgt : b.published_at > a.published_at
      · rw [if_pos hgt] at h
        injection h with h2
        exact List.mem_cons_of_mem a (h2 ▸ ih b hp)
      · rw [if_neg hgt] at h
        injection h with h2
        exact h2 ▸ List.mem_cons_self a t

/-- The model of ORDER BY ... LIMIT 1 returns a row of maximal
published_at. -/
theorem pickMostRecent_max (l : List PublishedRow) (r : PublishedRow)
    (h : pickMostRecent l = some r) : ∀ x ∈ l, x.published_at ≤ r.published_at := by
  induction l generalizing r with
  | nil => cases h
  | cons a t ih =>
    unfold pickMostRecent at h
    intro x hx
    cases hp : pickMostRecent t with
    | none =>
      simp only [hp] at h
      injection h with h2
      rw [pickMostRecent_eq_none] at hp
      rcases List.mem_cons.mp hx with h1 | h1
      · rw [h1, ← h2]
      · rw [hp] at h1; cases h1
    | some b =>
      simp only [hp] at h
      rcases List.mem_cons.mp hx with h1 | h1
      · subst h1
        by_cases hgt : b.published_at > x.published_at
        · rw [if_pos hgt] at h
          injection h with h2
          subst h2
          omega
        · rw [if_neg hgt] at h
          injection h with h2
          rw [← h2]
      · have hxb := ih b hp x h1
        by_cases hgt : b.published_at > a.published_at
        · rw [if_pos hgt] at h
          injection h with h2
          rw [← h2]
          exact hxb
        · rw [if_neg hgt] at h
          injection h with h2
          rw [← h2]
          omega

/-- Term resolution yields nothing exactly when the owner has no published
row. -/
theorem resolveLatest_none_iff (rows : List PublishedRow) (owner : String) :
    resolveLatest rows owner = none ↔
      rows.filter (fun r => r.user_id == owner) = [] := by
  simp only [resolveLatest]
  cases hp : pickMostRecent ((rows.filter (fun r => r.user_id == owner)).filter
      (fun r => r.is_latest == (1 : Int))) with
  | some r =>
    simp only [hp]
    constructor
    · intro h; cases h
    · intro hmine
      rw [hmine] at hp
      cases hp
  | none =>
    simp only [hp]
    exact pickMostRecent_eq_none _

/-- What a successful term resolution picks: a published row of the owner,
the latest-flagged one of maximal published_at when a flagged row exists,
else one of maximal published_at overall. -/
theorem resolveLatest_spec (rows : List PublishedRow) (owner : String)
    (p : PublishedRow) (h : resolveLatest rows owner = some p) :
    p ∈ rows.filter (fun r => r.user_id == owner) ∧
    ((rows.filter (fun r => r.user_id == owner)).any
        (fun r => r.is_latest == (1 : Int)) = true →
      p.is_latest = 1 ∧ ∀ x ∈ rows.filter (fun r => r.user_id == owner),
        x.is_latest = 1 → x.published_at ≤ p.published_at) ∧
    ((rows.filter (fun r => r.user_id == owner)).any
        (fun r => r.is_latest == (1 : Int)) = false →
      ∀ x ∈ rows.filter (fun r => r.user_id == owner),
        x.published_at ≤ p.published_at) := by
  simp only [resolveLatest] at h
  cases hp : pickMostRecent ((rows.filter (fun r => r.user_id == owner)).filter
      (fun r => r.is_latest == (1 : Int))) with
  | some q =>
    simp only [hp] at h
    injection h with h2
    have hmemf := pickMostRecent_mem _ _ hp
    have hmem : q ∈ rows.filter (fun r => r.user_id == owner) :=
      List.mem_of_mem_filter hmemf
    have hlat : q.is_latest = 1 := by
      have := List.of_mem_filter hmemf
      simpa using this
    rw [← h2]
    refine ⟨hmem, fun _ => ⟨hlat, ?_⟩, fun hnone => ?_⟩
    · intro x hx hxl
      apply pickMostRecent_max _ _ hp
      exact List.mem_filter.mpr ⟨hx, by simp [hxl]⟩
    · exfalso
      rw [List.any_eq_false] at hnone
      exact hnone q hmem (by simp [hlat])
  | none =>
    simp only [hp] at h
    have hmem := pickMostRecent_mem _ _ h
    refine ⟨hmem, fun hany => ?_, fun _ => pickMostRecent_max _ _ h⟩
    exfalso
    rw [pickMostRecent_eq_none] at hp
    rw [List.any_eq_true] at hany
    obtain ⟨x, hx, hxl⟩ := hany
    have hxin : x ∈ (rows.filter (fun r => r.user_id == owner)).filter
        (fun r => r.is_latest == (1 : Int)) := List.mem_filter.mpr ⟨hx, hxl⟩
    rw [hp] at hxin
    cases hxin

/-- The refined sync embedding coincides with `syncHandler` on the two stop
points the coarse oracle expresses: a completing publish step is
`pubFails = false`, a publish step failing before any write is
`pubFails = true`. -/
theorem syncHandlerFull_agrees (st : DBState) (req : SyncReq) (now : Int) :
    syncHandlerFull st req .completed now = syncHandler st req false now ∧
    syncHandlerFull st req .failedBefore now = syncHandler st req true now := by
  unfold syncHandlerFull syncHandler
  cases hb : buildRows req req.entries with
  | error e => simp
  | ok rows =>
    cases hi : insertBatch (deleteTerm st.entries req.uid req.year req.semester req.subTerm)
        rows with
    | error e => simp [hi]
    | ok table =>
      cases hp : req.publishLatest with
      | false => simp [hi, hp, pubStepResult]
      | true => simp [hi, hp, pubStepResult]

/-- The gate flags derived from a present settings row are that row's raw
values compared against 1. -/
theorem settingsOut_flags_of_row (st : DBState) (owner : String) (r : SettingsRow)
    (hs : settingsFor st owner = some r) :
    ((settingsOut st owner).is_public == 1) = (r.is_public == 1) ∧
    ((settingsOut st owner).allow_followers == 1) = (r.allow_followers == 1) := by
  unfold settingsOut
  rw [hs]
  constructor
  · cases hb : r.is_public == 1 <;> simp [hb]
  · cases hb : r.allow_followers == 1 <;> simp [hb]

/-- With no settings row, every gate flag is off (fail closed). -/
theorem settingsOut_flags_none (st : DBState) (owner : String)
    (hs : settingsFor st owner = none) :
    ((settingsOut st owner).is_public == 1) = false ∧
    ((settingsOut st owner).allow_followers == 1) = false := by
  unfold settingsOut
  rw [hs]
  constructor <;> decide

end Lemmas

section Claims

/-- C1 counterexample.  State: owner "u" has one stored entry for term
(2025, 1, 0).  Request: a sync for that term whose single entry has the
undecodable day "x".  The sync is rejected (the catch-all 500), yet the
stored entries for (owner, year, semester, subTerm) are NOT what they were
before the request: the handler's DELETE ran before validation, so the term
is now empty.  This refutes the claim's "no deletion ... occurs". -/
theorem c1_counterexample :
    (syncHandler sampleState badDayReq false 0).2 = .error .syncFailed ∧
    (syncHandler sampleState badDayReq false 0).1.entries ≠ sampleState.entries ∧
    (syncHandler sampleState badDayReq false 0).1.entries = [] := by decide

/-- C1 amended: for every sync request in which at least one entry fails day
validation, the entire sync is rejected (with the catch-all `syncFailed`, the
handler's 500) and no entry is inserted — but the stored entries for
(owner, year, semester, subTerm) are not what they were before the request:
the handler has already deleted them, so exactly the rows of other terms and
owners survive and the synced term is left empty. -/
theorem c1_sync_rejected_but_term_deleted (st : DBState) (req : SyncReq)
    (pf : Bool) (now : Int)
    (h : ∃ e ∈ req.entries, isErr (dayKeyToNum e.day) = true) :
    (syncHandler st req pf now).2 = .error .syncFailed ∧
    (syncHandler st req pf now).1.entries =
      deleteTerm st.entries req.uid req.year req.semester req.subTerm ∧
    (syncHandler st req pf now).1.entries.filter (fun r =>
      r.user_id == req.uid && r.year == req.year && r.semester == req.semester &&
      r.sub_term == req.subTerm) = [] := by
  obtain ⟨e, he, hd⟩ := h
  obtain ⟨err, herr⟩ := buildRows_error_of_mem req req.entries e he hd
  refine ⟨?_, ?_, ?_⟩
  · simp [syncHandler, herr]
  · simp [syncHandler, herr]
  · simp only [syncHandler, herr]
    exact deleteTerm_filter_nil st.entries req.uid req.year req.semester req.subTerm

/-- C1 witness: the amended statement instantiated at the concrete
counterexample state and request. -/
theorem c1_witness :
    (syncHandler sampleState badDayReq false 0).2 = .error .syncFailed ∧
    (syncHandler sampleState badDayReq false 0).1.entries =
      deleteTerm sampleState.entries badDayReq.uid badDayReq.year badDayReq.semester
        badDayReq.subTerm ∧
    (syncHandler sampleState badDayReq false 0).1.entries.filter (fun r =>
      r.user_id == badDayReq.uid && r.year == badDayReq.year &&
      r.semester == badDayReq.semester && r.sub_term == badDayReq.subTerm) = [] :=
  c1_sync_rejected_but_term_deleted sampleState badDayReq false 0 (by decide)

/-- C3, evaluated at the failing input.  `dayKeyToNum` returns a JSON number
unchanged, so the integer 6 is NOT rejected (while the string "6" is): a sync
whose entry carries day 6 as a number succeeds, the day-6 row is persisted,
and a subsequent read of that term then dies with the fatal 500
`badDayNum 6` of `dayNumToKey` — the error that, by the read path's own
design, "should never occur if the invariant held at write time". -/
theorem c3_day6_accepted_and_persisted :
    dayKeyToNum (.num 6) = .ok 6 ∧
    dayKeyToNum (.str "6") = .error (.invalidDay "6") ∧
    (syncHandler sampleState day6Req false 0).2 =
      .ok { success := true, deleted := true, inserted := 1,
            message := mkSyncMessage 1 2025 1 0 } ∧
    (syncHandler sampleState day6Req false 0).1.entries =
      [{ user_id := "u", year := 2025, semester := 1, sub_term := 0, day := 6,
         period := 1, course_code := some "CS101", course_name := none,
         instructor := none }] ∧
    fetchTermEntries (syncHandler sampleState day6Req false 0).1 "u" 2025 1 0 =
      .error (.badDayNum 6) := by decide

/-- C7: the day encode/decode pair round-trips on all valid encodings — every
integer day 1..5 survives `dayNumToKey` then `dayKeyToNum`, and every letter
in {m,t,w,r,f}, in either case, survives `dayKeyToNum` then `dayNumToKey`,
coming back as the lowercase letter. -/
theorem c7_day_roundtrip (n : Int) (s : String) :
    (1 ≤ n ∧ n ≤ 5 →
      ((dayNumToKey n).bind (fun k => dayKeyToNum (.str k))) = .ok n) ∧
    (s ∈ ["m", "t", "w", "r", "f", "M", "T", "W", "R", "F"] →
      ((dayKeyToNum (.str s)).bind dayNumToKey) = .ok (jsToLower s)) := by
  constructor
  · rintro ⟨h1, h2⟩
    interval_cases n <;> decide
  · intro hs
    fin_cases hs <;> decide

/-- C7 witness: the round trip at day 3 and at the uppercase letter "W". -/
theorem c7_witness :
    ((dayNumToKey 3).bind (fun k => dayKeyToNum (.str k))) = .ok 3 ∧
    ((dayKeyToNum (.str "W")).bind dayNumToKey) = .ok (jsToLower "W") :=
  ⟨(c7_day_roundtrip 3 "W").1 (by decide), (c7_day_roundtrip 3 "W").2 (by decide)⟩

/-- C9: when the source's settings row is missing, or does not have both
is_public=1 and allow_copy=1, the copy request fails with `copyNotAllowed`
and the whole store — in particular the destination user's entries and
settings — is left exactly as it was. -/
theorem c9_copy_gate_rejects_unchanged (st : DBState) (uid src : String)
    (y sm tt : Int) (h : copyAllowed st src = false) :
    copyHandler st uid src y sm tt = (st, .error .copyNotAllowed) := by
  unfold copyHandler
  unfold copyAllowed at h
  cases hs : settingsFor st src with
  | none => simp [hs]
  | some r =>
    rw [hs] at h
    have h2 : (r.is_public == 1 && r.allow_copy == 1) = false := h
    simp [hs, h2]

/-- C9 witness: copying from a source with is_public=1 but allow_copy=0 is
rejected with the store unchanged. -/
theorem c9_witness :
    copyHandler
      { entries := [sampleRow],
        published := [],
        settings := [{ user_id := "v", is_public := 1, allow_copy := 0,
                       allow_followers := 1, custom_colors := none }],
        follows := [] } "u" "v" 2025 1 0 =
    ({ entries := [sampleRow],
       published := [],
       settings := [{ user_id := "v", is_public := 1, allow_copy := 0,
                      allow_followers := 1, custom_colors := none }],
       follows := [] }, .error .copyNotAllowed) :=
  c9_copy_gate_rejects_unchanged _ "u" "v" 2025 1 0 (by decide)

/-- C2: starting from any store whose published-term rows satisfy the
primary-key constraint and give the owner at most one is_latest=1 row, any
finite sequence of publish operations — PUT /timetables/publish with any
latest flag, or PUT /timetables/sync with publishLatest — applied
sequentially leaves the owner with at most one is_latest=1 row. -/
theorem c2_at_most_one_latest (owner : String) (ops : List PubOp) (st : DBState)
    (hn : pubKeysNodup st.published) (hc : latestCount st.published owner ≤ 1) :
    latestCount (applyOps st owner ops).published owner ≤ 1 := by
  induction ops generalizing st with
  | nil => simpa [applyOps] using hc
  | cons op rest ih =>
    have hstep := inv_applyOp st owner op hn hc
    have hfold : applyOps st owner (op :: rest) = applyOps (applyOp st owner op) owner rest :=
      rfl
    rw [hfold]
    exact ih (applyOp st owner op) hstep.1 hstep.2

/-- C2 witness: a pin-as-latest publish of a new term followed by a
publishLatest sync of another term, from a one-latest-row store. -/
theorem c2_witness :
    latestCount (applyOps c2State "u"
      [.publish 2025 1 0 true 10, .syncPub 2024 2 0 [] 11]).published "u" ≤ 1 :=
  c2_at_most_one_latest "u" [.publish 2025 1 0 true 10, .syncPub 2024 2 0 [] 11]
    c2State (by unfold pubKeysNodup; decide) (by decide)

/-- C4 counterexample.  The sync body's entries may override the term: with
request term (2025, 1, 0) but an entry carrying `subTerm := 99`, the sync
succeeds (`success: true, inserted: 1`), yet fetching term (2025, 1, 0)
afterwards returns the empty list — not the non-empty entry list that was
synced.  This refutes "fetching that term returns exactly E" for arbitrary
entry lists. -/
theorem c4_counterexample :
    (syncHandler sampleState overrideReq false 0).2 =
      .ok { success := true, deleted := true, inserted := 1,
            message := mkSyncMessage 1 2025 1 0 } ∧
    fetchTermEntries (syncHandler sampleState overrideReq false 0).1 "u" 2025 1 0 =
      .ok [] ∧
    overrideReq.entries ≠ [] := by decide

/-- C4 amended: for every owner, term, and entry list whose rows (after the
per-entry defaulting) carry exactly the request's term and days inside 1..5,
a successful sync followed by a fetch of that term succeeds and returns
exactly the synced rows — as a list that is a permutation of them, ordered by
day ascending then period ascending.  (Entries overriding the term land in a
different term, and out-of-range numeric days poison the later fetch; the
counterexample forces both restrictions.) -/
theorem c4_sync_then_fetch (st : DBState) (req : SyncReq) (pf : Bool) (now : Int)
    (rows : List EntryRow) (st2 : DBState) (resp : SyncResponse)
    (hrows : buildRows req req.entries = .ok rows)
    (hterm : ∀ r ∈ rows, r.year = req.year ∧ r.semester = req.semester ∧
      r.sub_term = req.subTerm)
    (hday : ∀ r ∈ rows, 1 ≤ r.day ∧ r.day ≤ 5)
    (hsync : syncHandler st req pf now = (st2, .ok resp)) :
    ∃ L, fetchTermEntries st2 req.uid req.year req.semester req.subTerm = .ok L ∧
         renderRows (sortRows rows) = .ok L ∧
         (sortRows rows).Perm rows ∧
         sortedRows (sortRows rows) = true := by
  cases hi : insertBatch (deleteTerm st.entries req.uid req.year req.semester req.subTerm)
      rows with
  | error e =>
    exfalso
    unfold syncHandler at hsync
    simp only [hrows, hi] at hsync
    rw [Prod.mk.injEq] at hsync
    exact absurd hsync.2 (by simp)
  | ok table =>
    have hent : st2.entries = table :=
      syncHandler_ok_entries st req pf now rows table st2 resp hrows hi hsync
    have htab : table = deleteTerm st.entries req.uid req.year req.semester req.subTerm
        ++ rows := insertBatch_ok_eq _ _ _ hi
    have hfilter : table.filter (fun r =>
        r.user_id == req.uid && r.year == req.year && r.semester == req.semester &&
        r.sub_term == req.subTerm) = rows := by
      rw [htab, List.filter_append, deleteTerm_filter_nil, List.nil_append]
      apply List.filter_eq_self.mpr
      intro r hr
      obtain ⟨e, he, hbe⟩ := buildRows_ok_mem req req.entries rows hrows r hr
      have huid := buildRow_uid req e r hbe
      obtain ⟨h1, h2, h3⟩ := hterm r hr
      simp [huid, h1, h2, h3]
    have hper : (sortRows rows).Perm rows := sortRows_perm rows
    have hwf : ∀ r ∈ sortRows rows, 1 ≤ r.day ∧ r.day ≤ 5 := fun r hr =>
      hday r (hper.mem_iff.mp hr)
    obtain ⟨L, hL⟩ := renderRows_ok_of_wf (sortRows rows) hwf
    refine ⟨L, ?_, hL, hper, sortRows_sorted rows⟩
    unfold fetchTermEntries
    rw [hent, hfilter, hL]

/-- C4 witness: the amended statement at a concrete request replacing the
sample term with one entry. -/
theorem c4_witness :
    ∃ L, fetchTermEntries c4End "u" 2025 1 0 = .ok L ∧
         renderRows (sortRows [goodRow]) = .ok L ∧
         (sortRows [goodRow]).Perm [goodRow] ∧
         sortedRows (sortRows [goodRow]) = true :=
  c4_sync_then_fetch sampleState goodReq false 0 [goodRow] c4End
    { success := true, deleted := true, inserted := 1,
      message := mkSyncMessage 1 2025 1 0 }
    (by decide) (by decide) (by decide) (by decide)

/-- C5: on an owner whose settings row marks the timetable non-public, the
read handler always serves the owner's own authenticated read; denies every
authenticated non-owner non-follower with `privateTimetable` regardless of
the followers-view flag; and serves an active follower exactly when
followers-view is on.  (`entriesWF` is the write-side day invariant 1..5 the
read path assumes.) -/
theorem c5_visibility (st : DBState) (owner : String) (r : SettingsRow)
    (q : Option Term) (hs : settingsFor st owner = some r)
    (hpriv : ¬ r.is_public = 1) (hwf : entriesWF st) :
    (∃ resp, getTimetable st (some owner) owner q = .ok resp) ∧
    (∀ v, ¬ v = owner → (v, owner) ∉ st.follows →
      getTimetable st (some v) owner q = .error .privateTimetable) ∧
    (∀ v, ¬ v = owner → (v, owner) ∈ st.follows →
      ((∃ resp, getTimetable st (some v) owner q = .ok resp) ↔
        r.allow_followers = 1)) := by
  obtain ⟨hpubEq, hfolEq⟩ := settingsOut_flags_of_row st owner r hs
  have hpub : ((settingsOut st owner).is_public == 1) = false := by
    rw [hpubEq]; exact beq_eq_false_iff_ne.mpr hpriv
  refine ⟨getTimetable_ok_of_gate st (some owner) owner q hwf
      (gate_self_ok _ _ _ owner), ?_, ?_⟩
  · intro v hv hnm
    apply getTimetable_gate_error
    rw [hpub]
    exact gate_nonfollower_denied _ _ _ _ (beq_eq_false_iff_ne.mpr hv) hnm
  · intro v hv hm
    have hvb : (v == owner) = false := beq_eq_false_iff_ne.mpr hv
    constructor
    · intro hok
      by_contra hal
      have hfol : ((settingsOut st owner).allow_followers == 1) = false := by
        rw [hfolEq]; exact beq_eq_false_iff_ne.mpr hal
      have hgerr : getTimetable st (some v) owner q = .error .privateTimetable := by
        apply getTimetable_gate_error
        rw [hpub, hfol]
        exact gate_followers_disabled _ _ _ hvb
      obtain ⟨resp, hresp⟩ := hok
      rw [hgerr] at hresp
      cases hresp
    · intro hal
      have hfol : ((settingsOut st owner).allow_followers == 1) = true := by
        rw [hfolEq]; simp [hal]
      apply getTimetable_ok_of_gate st (some v) owner q hwf
      rw [hpub, hfol]
      exact gate_follower_allowed _ _ _ hvb hm

/-- C5 witness: on the concrete private store, a non-follower's read is
denied with `privateTimetable`. -/
theorem c5_witness :
    getTimetable c5State (some "x") "u" none = .error .privateTimetable :=
  (c5_visibility c5State "u"
      { user_id := "u", is_public := 0, allow_copy := 0, allow_followers := 1,
        custom_colors := none } none (by decide) (by decide)
      (by unfold entriesWF; decide)).2.1 "x" (by decide) (by decide)

/-- C6: with the term unspecified, the read of an owner resolves to nothing
exactly when the owner has no published row; a never-published owner gets
the fixed empty payload (no guessed term); and a published owner is served
the is_latest=1 row of maximal publishedAt when one is flagged, else the row
of maximal publishedAt, with that term echoed as selected. -/
theorem c6_default_term (st : DBState) (owner : String) (hwf : entriesWF st) :
    (resolveLatest st.published owner = none ↔
      st.published.filter (fun r => r.user_id == owner) = []) ∧
    (st.published.filter (fun r => r.user_id == owner) = [] →
      getTimetable st (some owner) owner none =
        .ok { entries := [], settings := settingsOut st owner,
              available_terms := [], selected := none }) ∧
    (∀ p, resolveLatest st.published owner = some p →
      p ∈ st.published.filter (fun r => r.user_id == owner) ∧
      ((st.published.filter (fun r => r.user_id == owner)).any
          (fun r => r.is_latest == (1 : Int)) = true →
        p.is_latest = 1 ∧ ∀ x ∈ st.published.filter (fun r => r.user_id == owner),
          x.is_latest = 1 → x.published_at ≤ p.published_at) ∧
      ((st.published.filter (fun r => r.user_id == owner)).any
          (fun r => r.is_latest == (1 : Int)) = false →
        ∀ x ∈ st.published.filter (fun r => r.user_id == owner),
          x.published_at ≤ p.published_at) ∧
      ∃ resp, getTimetable st (some owner) owner none = .ok resp ∧
        resp.selected = some { year := p.year, semester := p.semester,
                               subTerm := p.sub_term }) := by
  refine ⟨resolveLatest_none_iff st.published owner, ?_, ?_⟩
  · intro hnil
    have hres : resolveLatest st.published owner = none :=
      (resolveLatest_none_iff st.published owner).mpr hnil
    unfold getTimetable
    rw [gate_self_ok]
    simp only [except_bind_ok]
    unfold getBody
    rw [hres]
  · intro p hp
    obtain ⟨hmem, hflag, hnoflag⟩ := resolveLatest_spec st.published owner p hp
    obtain ⟨L, hL⟩ := fetchTermEntries_ok st owner p.year p.semester p.sub_term hwf
    refine ⟨hmem, hflag, hnoflag,
      ⟨{ entries := L, settings := settingsOut st owner,
         available_terms := listTerms st.published owner,
         selected := some { year := p.year, semester := p.semester,
                            subTerm := p.sub_term } }, ?_, rfl⟩⟩
    unfold getTimetable
    rw [gate_self_ok]
    simp only [except_bind_ok]
    unfold getBody
    rw [hp]
    simp [hL]

/-- C6 witness: on the concrete store with one published row, the resolution
is empty exactly when the owner's published rows are (here: neither). -/
theorem c6_witness :
    resolveLatest c2State.published "u" = none ↔
      c2State.published.filter (fun r => r.user_id == "u") = [] :=
  (c6_default_term c2State "u" (by unfold entriesWF; decide)).1

/-- C10: an owner with no timetable_settings row at all is served fail
closed: the owner's own authenticated read succeeds, while an anonymous
read and every other authenticated viewer — follower or not — get
`privateTimetable`. -/
theorem c10_missing_settings_fail_closed (st : DBState) (owner : String)
    (q : Option Term) (hs : settingsFor st owner = none) (hwf : entriesWF st) :
    (∃ resp, getTimetable st (some owner) owner q = .ok resp) ∧
    getTimetable st none owner q = .error .privateTimetable ∧
    (∀ v, ¬ v = owner →
      getTimetable st (some v) owner q = .error .privateTimetable) := by
  obtain ⟨hpub, hfol⟩ := settingsOut_flags_none st owner hs
  refine ⟨getTimetable_ok_of_gate st (some owner) owner q hwf
      (gate_self_ok _ _ _ owner), ?_, ?_⟩
  · apply getTimetable_gate_error
    rw [hpub]
    exact gate_anon_denied _ _ owner
  · intro v hv
    apply getTimetable_gate_error
    rw [hpub, hfol]
    exact gate_followers_disabled _ _ _ (beq_eq_false_iff_ne.mpr hv)

/-- C10 witness: on the settings-less sample store, a non-owner (here even a
would-be follower set is empty) is denied. -/
theorem c10_witness :
    getTimetable sampleState (some "w") "u" none = .error .privateTimetable :=
  (c10_missing_settings_fail_closed sampleState "u" none (by decide)
    (by unfold entriesWF; decide)).2.2 "w" (by decide)

/-- C8 counterexample.  A sync with publishLatest whose publication step
fails — whether it throws before its first statement or between the upsert
and the clear-siblings UPDATE — returns a response byte-for-byte identical
to the plain success body of the run in which publication completes: the
response type has no warning field at all (the handler only
`console.warn`s), even when nothing was published.  This refutes "the
failure is surfaced to the caller as a warning field in the response". -/
theorem c8_counterexample :
    (syncHandlerFull sampleState pubReq .failedBefore 5).2 =
      (syncHandlerFull sampleState pubReq .completed 5).2 ∧
    (syncHandlerFull sampleState pubReq .failedBetween 5).2 =
      (syncHandlerFull sampleState pubReq .completed 5).2 ∧
    (syncHandlerFull sampleState pubReq .failedBefore 5).2 =
      .ok { success := true, deleted := true, inserted := 1,
            message := mkSyncMessage 1 2025 1 0 } ∧
    (syncHandlerFull sampleState pubReq .failedBefore 5).1.published = [] := by decide

/-- C8 amended: when the publication step of a publishLatest sync fails after
the entries were successfully replaced — at either of its possible stop
points, before its first store statement or between the upsert and the
clear-siblings UPDATE — the response is still a success and the replacement
is not rolled back; but the failure is only logged and ignored, not
surfaced: the response is identical to that of a run whose publication
completes, and a failure before the first statement leaves the publication
index unchanged. -/
theorem c8_publish_failure_only_logged (st : DBState) (req : SyncReq) (now : Int)
    (att : PubAttempt) (resp : SyncResponse) (hp : req.publishLatest = true)
    (h : (syncHandlerFull st req att now).2 = .ok resp) :
    resp.success = true ∧
    (syncHandlerFull st req att now).1.entries =
      (syncHandlerFull st req .completed now).1.entries ∧
    (syncHandlerFull st req att now).2 = (syncHandlerFull st req .completed now).2 ∧
    (syncHandlerFull st req .completed now).2 = .ok resp ∧
    (att = .failedBefore → (syncHandlerFull st req att now).1.published = st.published) := by
  cases hb : buildRows req req.entries with
  | error err => rw [syncHandlerFull] at h; rw [hb] at h; simp at h
  | ok rows =>
    cases hi : insertBatch (deleteTerm st.entries req.uid req.year req.semester req.subTerm)
        rows with
    | error e =>
      rw [syncHandlerFull] at h; rw [hb] at h; simp [hi] at h
    | ok table =>
      have hresp : resp =
          { success := true, deleted := true, inserted := req.entries.length,
            message := mkSyncMessage req.entries.length req.year req.semester req.subTerm } := by
        rw [syncHandlerFull] at h; rw [hb] at h; simp [hi] at h
        exact h.symm
      refine ⟨by rw [hresp], ?_, ?_, ?_, ?_⟩
      · simp [syncHandlerFull, hb, hi, hp]
      · simp [syncHandlerFull, hb, hi]
      · rw [hresp]
        simp [syncHandlerFull, hb, hi]
      · intro hatt
        rw [hatt]
        simp [syncHandlerFull, hb, hi, hp, pubStepResult]

/-- C8 witness: the amended statement instantiated at the concrete fixture,
with the publish step failing between its two statements. -/
theorem c8_witness :
    ({ success := true, deleted := true, inserted := 1,
       message := mkSyncMessage 1 2025 1 0 } : SyncResponse).success = true ∧
    (syncHandlerFull sampleState pubReq .failedBetween 5).1.entries =
      (syncHandlerFull sampleState pubReq .completed 5).1.entries ∧
    (syncHandlerFull sampleState pubReq .failedBetween 5).2 =
      (syncHandlerFull sampleState pubReq .completed 5).2 ∧
    (syncHandlerFull sampleState pubReq .completed 5).2 =
      .ok { success := true, deleted := true, inserted := 1,
            message := mkSyncMessage 1 2025 1 0 } ∧
    (PubAttempt.failedBetween = PubAttempt.failedBefore →
      (syncHandlerFull sampleState pubReq .failedBetween 5).1.published =
        sampleState.published) :=
  c8_publish_failure_only_logged sampleState pubReq 5 .failedBetween _
    (by decide) (by decide)

end Claims

end TimetableModel
